import Mathlib

/-!
Verification of the sukkiri disk-cleanup core: a shallow embedding of the
allowlist filter, the category scanners, the deletion engine and the UI
state machine, together with proofs of the specified properties.

Modelling conventions:
* Rust `String`/`PathBuf` values are modelled by Lean `String`; Rust byte-level
  string operations on valid UTF-8 coincide with character-level operations on
  `String.data`, which is what the helpers below use.
* Filesystem access is abstracted into an explicit environment record `Fs`
  passed to the scanning functions; external command invocations are
  abstracted into environment records (`CleanEnv`, docker listing input).
* `u64` quantities are modelled by `Nat`; the only place where overflow or
  saturation matters (the `as u64` float cast and `u64` parsing in
  `parse_docker_size`) handles the `2^64` bound explicitly.
-/

namespace Sukkiri

/-- Character-level model of Rust `str::starts_with`: on valid UTF-8 the byte
prefix test coincides with the character-sequence prefix test. -/
def strStartsWith (s pre : String) : Bool :=
  pre.data.isPrefixOf s.data

/-- Character-level model of Rust `str::contains` (substring containment). -/
def strContainsSub (s sub : String) : Bool :=
  s.data.tails.any (fun t => sub.data.isPrefixOf t)

/-- Substring containment as a proposition. -/
def StrContains (s sub : String) : Prop :=
  sub.data <:+: s.data

instance (s sub : String) : Decidable (StrContains s sub) := by
  unfold StrContains; infer_instance

/-- Model of `Allowlist::is_allowed` (src/allowlist.rs): true iff some rule
equals the path string or is a leading segment of it (plain byte prefix). -/
def is_allowed (rules : List String) (path : String) : Bool :=
  rules.any (fun rule => path == rule || strStartsWith path rule)

/-- C2: `is_allowed` returns true iff some rule `r` in the list satisfies
`path = r` or the character sequence of `r` is a prefix of that of `path`
(plain prefix, not restricted to path-segment boundaries). -/
theorem is_allowed_iff_exists_rule (rules : List String) (p : String) :
    is_allowed rules p = true ↔ ∃ r ∈ rules, p = r ∨ r.data <+: p.data := by
  simp [is_allowed, List.any_eq_true, strStartsWith, List.isPrefixOf_iff_prefix]

/-! ## Data model (src/model.rs) -/

/-- Model of `CategoryType` (src/model.rs): the closed enumeration of
reclaimable-data categories. -/
inductive CategoryType where
  | xcodeJunk
  | systemLogs
  | systemCache
  | userLogs
  | userCache
  | browserCache
  | downloads
  | trash
  | developerCaches
  | screenCapture
  | nodeModules
  | dockerImages
deriving DecidableEq, Repr

/-- Model of `ScannedItem` (src/model.rs); `modified : Nat` stands for the
`SystemTime` timestamp. -/
structure ScannedItem where
  path : String
  size : Nat
  modified : Nat
deriving DecidableEq, Repr

/-- Model of `ScanResult` (src/model.rs). -/
structure ScanResult where
  category : CategoryType
  total_size : Nat
  items : List ScannedItem
  is_selected : Bool
  description : String
  root_path : String
deriving DecidableEq, Repr

/-- Model of `ScanProgress` (src/ui and src/model usage). -/
structure ScanProgress where
  category : CategoryType
  items_count : Nat
  status : String
deriving DecidableEq, Repr

/-! ## Scanner utilities (src/scanner/utils.rs)

Filesystem access is abstracted into an environment `Fs`:
`pathExists` models `Path::exists`, `readDir` models the list of child paths
obtained from `fs::read_dir` (entries whose read errored are absent, and a
failing `read_dir` is modelled by an empty child list, exactly as the code
maps an `Err` to `vec![]`), and `statOf` models the recursive size and the
latest modification time computed by `calculate_item_stats` for one subtree
(its internal traversal never fails and is not further decomposed here).
Progress callbacks only emit advisory channel messages and are not modelled. -/

structure Fs where
  pathExists : String → Bool
  readDir : String → List String
  statOf : String → Nat × Nat

/-- Model of `calculate_item_stats` (src/scanner/utils.rs) at the granularity
used by the claims: the item records the path and the environment-provided
recursive size and modification time. -/
def calculate_item_stats (fs : Fs) (path : String) : ScannedItem :=
  ⟨path, (fs.statOf path).1, (fs.statOf path).2⟩

/-- Descending-by-size comparison used by `items.sort_by(|a, b| b.size.cmp(&a.size))`. -/
def sizeDescRel (a b : ScannedItem) : Prop := b.size ≤ a.size

instance : DecidableRel sizeDescRel := fun a b => by unfold sizeDescRel; infer_instance

instance : IsTotal ScannedItem sizeDescRel :=
  ⟨fun a b => (le_total b.size a.size).imp id id⟩

instance : IsTrans ScannedItem sizeDescRel :=
  ⟨fun _ _ _ h h' => le_trans h' h⟩

/-- Model of the stable descending sort `items.sort_by(|a, b| b.size.cmp(&a.size))`.
Rust `sort_by` is a stable sort, so its output is the unique stable
size-descending reordering, which `List.insertionSort` computes. -/
def sortItemsDesc (items : List ScannedItem) : List ScannedItem :=
  List.insertionSort sizeDescRel items

/-- Model of `scan_path` (src/scanner/utils.rs): a nonexistent target yields
`(0, [])`; otherwise the immediate children surviving the allowlist are
stat-computed, the total is their size sum, and the item list is sorted by
size descending. The function is total: no error case exists. -/
def scan_path (fs : Fs) (allow : List String) (target : String) :
    Nat × List ScannedItem :=
  if fs.pathExists target = false then (0, [])
  else
    let entries := fs.readDir target
    let items := (entries.filter (fun p => !is_allowed allow p)).map
      (calculate_item_stats fs)
    let total := (items.map (fun i => i.size)).sum
    (total, sortItemsDesc items)

/-! ## Fixed-path scanner (src/scanner/mod.rs) -/

/-- Model of `PathScanner` (src/scanner/mod.rs). -/
structure PathScanner where
  category : CategoryType
  description : String
  paths : List String

/-- Model of `PathScanner::scan` (src/scanner/mod.rs): appends the items of
each root's `scan_path` result in root order (no global re-sort), sums the
sizes, and reports the first root (or the home directory) as `root_path`. -/
def PathScanner.scan (sc : PathScanner) (fs : Fs) (allow : List String)
    (home : String) : ScanResult :=
  let all_items := sc.paths.foldl
    (fun acc p => acc ++ (scan_path fs allow p).2) []
  let total_size := (all_items.map (fun i => i.size)).sum
  let root_path := match sc.paths with
    | [] => home
    | p :: _ => p
  ⟨sc.category, total_size, all_items, false, sc.description, root_path⟩

/-! ## Composite user-cache scanner (src/scanner/user.rs) -/

/-- Path join model for `home.join(sub)` on the non-empty relative components
used by the scanners. -/
def pathJoin (base sub : String) : String :=
  base ++ "/" ++ sub

/-- Model of `UserCacheScanner::scan` (src/scanner/user.rs): scans
`~/Library/Caches`, retroactively drops items whose path contains one of the
browser-cache sub-paths, then appends the items of every existing
`~/Library/Containers/<entry>/Data/Library/Caches` root, in container order,
without re-sorting the merged list. -/
def UserCacheScanner.scan (fs : Fs) (allow : List String) (home : String) :
    ScanResult :=
  let path := pathJoin home "Library/Caches"
  let base := (scan_path fs allow path).2
  let kept := base.filter (fun item =>
    !(strContainsSub item.path "Library/Caches/Google/Chrome") &&
    !(strContainsSub item.path "Library/Caches/com.apple.Safari") &&
    !(strContainsSub item.path "Library/Caches/Firefox"))
  let containersPath := pathJoin home "Library/Containers"
  let items :=
    if fs.pathExists containersPath then
      let containerCaches := ((fs.readDir containersPath).map
        (fun e => pathJoin e "Data/Library/Caches")).filter fs.pathExists
      kept ++ containerCaches.flatMap (fun p => (scan_path fs allow p).2)
    else kept
  ⟨CategoryType.userCache, (items.map (fun i => i.size)).sum, items, false,
    "User cache files (including sandboxed apps).", path⟩

/-! ## Container-image scanner (src/scanner/docker.rs) -/

/-- Character list of a string with surrounding whitespace removed, modelling
`str::trim` (Rust trims Unicode whitespace; the inputs at issue are ASCII). -/
def trimChars (l : List Char) : List Char :=
  ((l.dropWhile Char.isWhitespace).reverse.dropWhile Char.isWhitespace).reverse

/-- Uppercase conversion modelling `str::to_uppercase` on the ASCII inputs at
issue. -/
def upperChars (l : List Char) : List Char :=
  l.map Char.toUpper

/-- The prepared form `size_str.trim().to_uppercase()` used by
`parse_docker_size`. -/
def prepSize (s : String) : List Char :=
  upperChars (trimChars s.data)

/-- Model of `str::strip_suffix`: removes `suf` from the end of `l` when it is
a suffix, and fails otherwise. -/
def stripSuffixChars (l suf : List Char) : Option (List Char) :=
  if suf.isSuffixOf l then some (l.take (l.length - suf.length)) else none

/-- Numeric value of a digit-character list, most significant first. -/
def digitsToNat (l : List Char) : Nat :=
  l.foldl (fun acc c => acc * 10 + (c.toNat - 48)) 0

/-- A parsed decimal number: the exact value is
`(-1 if negative) * num / den` with `den` a power of ten. This represents the
float produced by `str::parse::<f64>` exactly; the rounding of a decimal to
the nearest double is not modelled, and on the inputs at issue the double
value is exact. -/
structure DecNum where
  negative : Bool
  num : Nat
  den : Nat
deriving DecidableEq, Repr

/-- Model of `str::parse::<f64>` restricted to sign-and-decimal forms
(`[+|-] digits [. digits]`, with at least one digit). Exponent, infinity and
NaN forms are not modelled. -/
def parseUnsignedDec (l : List Char) : Option DecNum :=
  let ip := l.takeWhile Char.isDigit
  let rest := l.dropWhile Char.isDigit
  match rest with
  | [] => if ip.isEmpty then none else some ⟨false, digitsToNat ip, 1⟩
  | '.' :: frac =>
    if frac.all Char.isDigit && !(ip.isEmpty && frac.isEmpty) then
      some ⟨false, digitsToNat ip * 10 ^ frac.length + digitsToNat frac,
        10 ^ frac.length⟩
    else none
  | _ => none

/-- Signed decimal parsing; see `parseUnsignedDec`. -/
def parseDecimal (l : List Char) : Option DecNum :=
  match l with
  | '+' :: rest => parseUnsignedDec rest
  | '-' :: rest => (parseUnsignedDec rest).map (fun d => { d with negative := true })
  | _ => parseUnsignedDec l

/-- Model of `str::parse::<u64>`: an optional leading `+` followed by at least
one digit, with the value required to fit in 64 bits. -/
def parseU64 (l : List Char) : Option Nat :=
  let d := match l with
    | '+' :: rest => rest
    | _ => l
  if !d.isEmpty && d.all Char.isDigit && digitsToNat d < 2 ^ 64 then
    some (digitsToNat d)
  else none

/-- The `parse::<f64>().map(|v| (v * m) as u64).unwrap_or(0)` step shared by
the `GB`, `MB` and `KB` branches of `parse_docker_size`. The Rust `as u64`
cast saturates negative values to 0 and values at or above `2^64` to the
maximum, and truncates toward zero otherwise; on a nonnegative exact value
`num / den` that truncation is the natural-number division `num * m / den`. -/
def truncMul (q : Option DecNum) (m : Nat) : Nat :=
  match q with
  | some d => if d.negative then 0 else min (d.num * m / d.den) (2 ^ 64 - 1)
  | none => 0

/-- Model of `parse_docker_size` (src/scanner/docker.rs): trims and
uppercases, then strips `GB`, `MB`, `KB` or `B` in that order; the first three
parse the remainder as a float and multiply by the binary multiplier, while
the `B` branch parses the remainder as a `u64`; every failure yields 0. -/
def parse_docker_size (s : String) : Nat :=
  let u := prepSize s
  match stripSuffixChars u "GB".data with
  | some rest => truncMul (parseDecimal rest) 1073741824
  | none =>
    match stripSuffixChars u "MB".data with
    | some rest => truncMul (parseDecimal rest) 1048576
    | none =>
      match stripSuffixChars u "KB".data with
      | some rest => truncMul (parseDecimal rest) 1024
      | none =>
        match stripSuffixChars u "B".data with
        | some rest => (parseU64 rest).getD 0
        | none => 0

/-- Size parsing as the specification sentence literally states it: every one
of the four unit suffixes, including plain `B`, has its remainder parsed as a
floating-point number, multiplied by the unit multiplier and truncated. Kept
for comparison with `parse_docker_size`, whose `B` branch instead parses an
unsigned integer. -/
def parse_docker_size_claim (s : String) : Nat :=
  let u := prepSize s
  match stripSuffixChars u "GB".data with
  | some rest => truncMul (parseDecimal rest) 1073741824
  | none =>
    match stripSuffixChars u "MB".data with
    | some rest => truncMul (parseDecimal rest) 1048576
    | none =>
      match stripSuffixChars u "KB".data with
      | some rest => truncMul (parseDecimal rest) 1024
      | none =>
        match stripSuffixChars u "B".data with
        | some rest => truncMul (parseDecimal rest) 1
        | none => 0

/-- Suffix table lookup used by the amended specification-level description of
docker size parsing: the first suffix in the table that strips wins. -/
def lookupStrip (u : List Char) :
    List (List Char × Nat) → Option (List Char × Nat)
  | [] => none
  | (suf, m) :: rest =>
    match stripSuffixChars u suf with
    | some r => some (r, m)
    | none => lookupStrip u rest

/-- The amended specification-level description of docker size parsing: a
float-parsed remainder for the table suffixes `GB`, `MB`, `KB`, and an
unsigned-integer-parsed remainder for the bare `B` suffix. -/
def parse_docker_size_amended (s : String) : Nat :=
  let u := prepSize s
  match lookupStrip u
      [("GB".data, 1073741824), ("MB".data, 1048576), ("KB".data, 1024)] with
  | some (rest, m) => truncMul (parseDecimal rest) m
  | none =>
    match stripSuffixChars u "B".data with
    | some rest => (parseU64 rest).getD 0
    | none => 0

/-- Model of `str::split` on a single separator character: every occurrence
separates, and empty segments are kept (the empty input yields one empty
segment). -/
def splitOnChar (c : Char) : List Char → List (List Char)
  | [] => [[]]
  | x :: xs =>
    let r := splitOnChar c xs
    if x == c then [] :: r
    else
      match r with
      | [] => [[x]]
      | h :: t => (x :: h) :: t

/-- One parsed line of `docker images` output, modelling the body of the line
loop of `scan_docker_unused_images_impl` (src/scanner/docker.rs). -/
def parseDockerLine (nowTime : Nat) (line : String) : Option ScannedItem :=
  let parts := splitOnChar '|' line.data
  if parts.length ≥ 2 then
    let id : String := ⟨parts.getD 0 []⟩
    let size_str : String := ⟨parts.getD 1 []⟩
    let name : String := if parts.length > 2 then ⟨parts.getD 2 []⟩ else "<none>"
    some ⟨"docker://" ++ id ++ "/" ++ name, parse_docker_size size_str, nowTime⟩
  else none

/-- Model of `scan_docker_unused_images_impl` (src/scanner/docker.rs): `none`
stands for an unavailable docker binary or a failed listing command (both
yield no items); `some lines` stands for the stdout lines of the listing
command, parsed in order. -/
def scan_docker_unused_images_impl (lines : Option (List String))
    (nowTime : Nat) : List ScannedItem :=
  match lines with
  | none => []
  | some ls => ls.filterMap (parseDockerLine nowTime)

/-- Model of `DockerScanner::scan` (src/scanner/docker.rs): parses the listing
output, drops allowlisted virtual paths, and returns the items in command
output order (no sort). -/
def DockerScanner.scan (lines : Option (List String)) (nowTime : Nat)
    (allow : List String) : ScanResult :=
  let items := (scan_docker_unused_images_impl lines nowTime).filter
    (fun i => !is_allowed allow i.path)
  ⟨CategoryType.dockerImages, (items.map (fun i => i.size)).sum, items, false,
    "Unused Docker images (dangling=true)", "Docker"⟩

/-! ## Deletion engine (src/cleaner.rs)

External effects are made explicit: the outcome of every `docker rmi <id>`
invocation is given by the environment, and the filesystem actions the loop
performs are recorded as an effect trace. The Rust code discards the results
of `remove_dir_all`/`remove_file` (`let _ = ...`), so a removal attempt is
recorded but has no bearing on the overall outcome. -/

/-- Outcome of spawning `docker rmi <id>`: the spawn itself can fail
(`Command::output()` returning `Err`), or the command runs and exits with a
success flag plus captured stdout and stderr. -/
inductive CmdOutcome where
  | launchFailure (msg : String)
  | ran (success : Bool) (stdout stderr : String)
deriving DecidableEq, Repr

/-- Environment for `delete_items`: the docker removal oracle and the
`Path::is_dir` test. -/
structure CleanEnv where
  dockerRmi : String → CmdOutcome
  isDir : String → Bool

/-- One externally visible action performed by `delete_items`. -/
inductive Effect where
  | rmi (id : String)
  | removeDirAll (path : String)
  | removeFile (path : String)
deriving DecidableEq, Repr

/-- The virtual-path scheme used for container images. -/
def dockerScheme : String := "docker://"

/-- The image id extracted from a `docker://<ID>/<Name>` virtual path:
everything after the scheme up to the first slash, modelling
`rest.split('/').next().unwrap_or(rest)`. -/
def dockerIdOf (path : String) : String :=
  ⟨(path.data.drop dockerScheme.data.length).takeWhile (fun c => c ≠ '/')⟩

/-- The docker ids collected by the partition loop of `delete_items`, in item
order. -/
def dockerIdsOf (items : List ScannedItem) : List String :=
  items.filterMap (fun item =>
    if strStartsWith item.path dockerScheme then some (dockerIdOf item.path)
    else none)

/-- The filesystem paths collected by the partition loop of `delete_items`, in
item order. -/
def filePathsOf (items : List ScannedItem) : List String :=
  items.filterMap (fun item =>
    if strStartsWith item.path dockerScheme then none else some item.path)

/-- The error message built when `docker rmi <id>` exits with non-zero
status. -/
def rmiFailMsg (id stdout stderr : String) : String :=
  "Failed to remove Docker image " ++ id ++ ".\nStdout: " ++ stdout ++
    "\nStderr: " ++ stderr

/-- Sequential processing of the docker id batch: the trace of issued `rmi`
commands together with the first error, if any. A non-zero exit aborts with
the captured stdout and stderr in the message; a spawn failure aborts with the
spawn error. -/
def runRmis (env : CleanEnv) : List String → List Effect × Except String Unit
  | [] => ([], Except.ok ())
  | id :: rest =>
    match env.dockerRmi id with
    | CmdOutcome.launchFailure e =>
      ([], Except.error ("Failed to execute docker rmi: " ++ e))
    | CmdOutcome.ran true _ _ =>
      let (tr, r) := runRmis env rest
      (Effect.rmi id :: tr, r)
    | CmdOutcome.ran false out err =>
      ([Effect.rmi id], Except.error (rmiFailMsg id out err))

/-- Model of `delete_items` (src/cleaner.rs): empty input is an immediate
success; otherwise the docker ids are processed sequentially first and any
failure aborts the whole call before any filesystem path is touched; the
remaining filesystem paths are then removed (directory or file form chosen by
`is_dir`) with each removal outcome discarded, and the call succeeds. -/
def delete_items (env : CleanEnv) (items : List ScannedItem) :
    List Effect × Except String Unit :=
  if items.isEmpty then ([], Except.ok ())
  else
    match runRmis env (dockerIdsOf items) with
    | (tr, Except.error e) => (tr, Except.error e)
    | (tr, Except.ok _) =>
      (tr ++ (filePathsOf items).map (fun p =>
        if env.isDir p then Effect.removeDirAll p else Effect.removeFile p),
        Except.ok ())

/-! ## UI state machine (src/ui/app.rs and src/ui/mod.rs)

The coordinating `App` is modelled with its channel receivers reduced to
presence flags and each drain of a channel parameterised by the received
messages; the `sysinfo` disk list is not modelled. `selected` models
`list_state.selected()`. -/

/-- Model of `AppState` (src/ui/app.rs). -/
inductive AppState where
  | browsing
  | confirming
  | cleaning
  | scanning
  | done (msg : String)
deriving DecidableEq, Repr

/-- Model of `ScanUpdate` (src/ui/app.rs). -/
inductive ScanUpdate where
  | progress (p : ScanProgress)
  | result (r : ScanResult)
deriving DecidableEq, Repr

/-- Model of `App` (src/ui/app.rs); `cleaning_rx`/`scan_rx` record whether the
corresponding receiver is attached, and `scan_progress` models the progress
hash map as an association list with distinct categories. -/
structure App where
  results : List ScanResult
  selected : Option Nat
  state : AppState
  cleaning_rx : Bool
  scan_rx : Bool
  scan_progress : List (CategoryType × ScanProgress)
  total_categories : Nat
deriving DecidableEq, Repr

/-- Selection flip at index `i`, modelling the in-place assignment
`results[i].is_selected = !results[i].is_selected`. -/
def flipAt (l : List ScanResult) (i : Nat) : List ScanResult :=
  match l, i with
  | [], _ => []
  | r :: rest, 0 => { r with is_selected := !r.is_selected } :: rest
  | r :: rest, n + 1 => r :: flipAt rest n

/-- Model of `App::toggle` (src/ui/app.rs): flips the selected row's
`is_selected` when a row is selected and its index is in range, and does
nothing otherwise. -/
def App.toggle (app : App) : App :=
  match app.selected with
  | some i =>
    if i < app.results.length then { app with results := flipAt app.results i }
    else app
  | none => app

/-- Model of `App::total_selected_size` (src/ui/app.rs). -/
def App.total_selected_size (app : App) : Nat :=
  ((app.results.filter (fun r => r.is_selected)).map
    (fun r => r.total_size)).sum

/-- The per-result update applied in the success branch of
`check_cleaning_status`: a selected category is deselected and has its items
and total zeroed; others are untouched. -/
def clearIfSelected (r : ScanResult) : ScanResult :=
  if r.is_selected then { r with is_selected := false, items := [], total_size := 0 }
  else r

/-- Model of `App::check_cleaning_status` (src/ui/app.rs): `recv` is the
outcome of `try_recv` on the cleaning channel (`none` when no message is
ready). On a success message the state becomes `done` with that message and
every selected result is cleared; on a failure message the state becomes
`done` with the failure message and the results are left untouched; in both
cases the receiver is detached. Without a receiver or a message nothing
changes. The disk refresh performed in the success branch is not modelled. -/
def App.check_cleaning_status (app : App) (recv : Option (Except String String)) :
    App :=
  if app.cleaning_rx then
    match recv with
    | some (Except.ok msg) =>
      { app with
        state := AppState.done msg,
        results := app.results.map clearIfSelected,
        cleaning_rx := false }
    | some (Except.error errMsg) =>
      { app with state := AppState.done errMsg, cleaning_rx := false }
    | none => app
  else app

/-- Association-list update of the progress map, modelling
`scan_progress.get_mut(&c)`: an absent category leaves the map unchanged. -/
def updateProgress (m : List (CategoryType × ScanProgress)) (c : CategoryType)
    (f : ScanProgress → ScanProgress) : List (CategoryType × ScanProgress) :=
  m.map (fun e => if e.1 = c then (e.1, f e.2) else e)

/-- Model of one drained message inside `check_scan_status` (src/ui/app.rs):
a progress update accumulates the count and replaces the status label of its
category; a result marks the category done and appends the result. -/
def applyUpdate (app : App) (u : ScanUpdate) : App :=
  match u with
  | ScanUpdate.progress p =>
    { app with scan_progress := (updateProgress app.scan_progress p.category
        (fun e => { e with items_count := e.items_count + p.items_count,
                           status := p.status })) }
  | ScanUpdate.result r =>
    { app with
      scan_progress := updateProgress app.scan_progress r.category
        (fun e => { e with status := "Done" }),
      results := app.results ++ [r] }

/-- Descending comparison on `total_size` used by
`results.sort_by(|a, b| b.total_size.cmp(&a.total_size))`. -/
def totalDescRel (a b : ScanResult) : Prop := b.total_size ≤ a.total_size

instance : DecidableRel totalDescRel := fun a b => by
  unfold totalDescRel; infer_instance

instance : IsTotal ScanResult totalDescRel :=
  ⟨fun a b => (le_total b.total_size a.total_size).imp id id⟩

instance : IsTrans ScanResult totalDescRel :=
  ⟨fun _ _ _ h h' => le_trans h' h⟩

/-- Model of the stable descending sort of the results list. -/
def sortResultsDesc (l : List ScanResult) : List ScanResult :=
  List.insertionSort totalDescRel l

/-- Model of `App::check_scan_status` (src/ui/app.rs): `updates` are the
messages drained from the scan channel on this tick. After folding them in,
if the number of received results equals the number of requested categories
the results are sorted by total size descending, the first row is selected
when any results exist, the state becomes `browsing` and the receiver is
detached; otherwise nothing else changes. -/
def App.check_scan_status (app : App) (updates : List ScanUpdate) : App :=
  if app.scan_rx then
    let a := updates.foldl applyUpdate app
    if a.results.length = a.total_categories then
      let sorted := sortResultsDesc a.results
      { a with
        results := sorted,
        selected := if sorted.isEmpty then a.selected else some 0,
        state := AppState.browsing,
        scan_rx := false }
    else a
  else app

/-- Key events relevant to the `Browsing` arm of `run_app` (src/ui/mod.rs). -/
inductive Key where
  | charKey (c : Char)
  | down
  | up
  | enter
  | escape
deriving DecidableEq, Repr

/-- Model of `App::next` (src/ui/app.rs). -/
def App.next (app : App) : App :=
  if app.results.isEmpty then app
  else
    let i := match app.selected with
      | some i => if i ≥ app.results.length - 1 then 0 else i + 1
      | none => 0
    { app with selected := some i }

/-- Model of `App::previous` (src/ui/app.rs). -/
def App.previous (app : App) : App :=
  if app.results.isEmpty then app
  else
    let i := match app.selected with
      | some i => if i = 0 then app.results.length - 1 else i - 1
      | none => 0
    { app with selected := some i }

/-- Model of the `AppState::Browsing` key-handling arm of `run_app`
(src/ui/mod.rs): `none` models returning from `run_app` (quit); `Enter` moves
to `confirming` exactly when the total selected size is positive and
otherwise changes nothing. -/
def handleBrowsingKey (app : App) (k : Key) : Option App :=
  match k with
  | Key.charKey 'q' => none
  | Key.down => some app.next
  | Key.charKey 'j' => some app.next
  | Key.up => some app.previous
  | Key.charKey 'k' => some app.previous
  | Key.charKey ' ' => some app.toggle
  | Key.enter =>
    some (if app.total_selected_size > 0 then
      { app with state := AppState.confirming }
    else app)
  | _ => some app

/-! ## Claim C1: item ordering of the scanner variants -/

/-- Filesystem with two scan roots `/a` and `/b` whose single children have
sizes 100 and 200 respectively. -/
def fsTwoRoots : Fs where
  pathExists := fun p => ["/a", "/b", "/a/x", "/b/y"].contains p
  readDir := fun p =>
    if p == "/a" then ["/a/x"] else if p == "/b" then ["/b/y"] else []
  statOf := fun p =>
    if p == "/a/x" then (100, 0) else if p == "/b/y" then (200, 0) else (0, 0)

/-- A fixed-path scanner over the two roots `/a` and `/b`. -/
def twoRootScanner : PathScanner :=
  ⟨CategoryType.downloads, "two roots", ["/a", "/b"]⟩

/-- Filesystem for the user-cache scanner: the base cache root holds one item
of size 100 and a sandboxed-container cache holds one item of size 200. -/
def fsUserCache : Fs where
  pathExists := fun p =>
    ["/h/Library/Caches", "/h/Library/Caches/c1", "/h/Library/Containers",
      "/h/Library/Containers/app1/Data/Library/Caches",
      "/h/Library/Containers/app1/Data/Library/Caches/c2"].contains p
  readDir := fun p =>
    if p == "/h/Library/Caches" then ["/h/Library/Caches/c1"]
    else if p == "/h/Library/Containers" then ["/h/Library/Containers/app1"]
    else if p == "/h/Library/Containers/app1/Data/Library/Caches" then
      ["/h/Library/Containers/app1/Data/Library/Caches/c2"]
    else []
  statOf := fun p =>
    if p == "/h/Library/Caches/c1" then (100, 0)
    else if p == "/h/Library/Containers/app1/Data/Library/Caches/c2" then (200, 0)
    else (0, 0)

/-- C1 counterexample: three scanner variants return items that are not sorted
by size descending — the multi-root fixed-path scanner concatenates the
per-root sorted lists (here sizes `[100, 200]`), the composite user-cache
scanner appends container items after its base items (`[100, 200]`), and the
container-image scanner keeps the external command's output order
(`[1024, 1048576]`). -/
theorem scanner_items_not_globally_sorted :
    ¬ List.Sorted sizeDescRel (twoRootScanner.scan fsTwoRoots [] "/home").items ∧
    ¬ List.Sorted sizeDescRel (UserCacheScanner.scan fsUserCache [] "/h").items ∧
    ¬ List.Sorted sizeDescRel
      (DockerScanner.scan (some ["i2|1KB|r:t", "i1|1MB|r:t"]) 0 []).items := by
  refine ⟨?_, ?_, ?_⟩ <;> decide

/-- C1 amended: each single `scan_path` invocation returns its items sorted by
size descending, and consequently a fixed-path scanner with exactly one root
returns sorted items. -/
theorem scan_path_items_sorted (fs : Fs) (allow : List String)
    (target : String) (cat : CategoryType) (descr home : String) :
    List.Sorted sizeDescRel (scan_path fs allow target).2 ∧
    List.Sorted sizeDescRel
      ((PathScanner.mk cat descr [target]).scan fs allow home).items := by
  have hsorted : ∀ t : String, List.Sorted sizeDescRel (scan_path fs allow t).2 := by
    intro t
    unfold scan_path
    by_cases h : fs.pathExists t = false
    · simp [h]
    · simp only [h, if_false]
      exact List.sorted_insertionSort sizeDescRel _
  refine ⟨hsorted target, ?_⟩
  simp only [PathScanner.scan, List.foldl_cons, List.foldl_nil, List.nil_append]
  exact hsorted target

/-! ## Claim C9: scanning absent or empty directories -/

/-- C9: for every filesystem environment and allowlist, `scan_path` on a
nonexistent target, or on a target whose directory listing is empty, returns
total size 0 and no items; the function is total, so no error outcome
exists. -/
theorem scan_path_absent_or_empty (fs : Fs) (allow : List String) (p : String) :
    (fs.pathExists p = false → scan_path fs allow p = (0, [])) ∧
    (fs.readDir p = [] → scan_path fs allow p = (0, [])) := by
  constructor
  · intro h
    simp [scan_path, h]
  · intro h
    unfold scan_path
    by_cases he : fs.pathExists p = false
    · simp [he]
    · simp [he, h, sortItemsDesc, List.insertionSort]

/-- Filesystem in which nothing exists. -/
def fsNothing : Fs where
  pathExists := fun _ => false
  readDir := fun _ => []
  statOf := fun _ => (0, 0)

/-- Filesystem with a single existing, empty directory `/empty`. -/
def fsEmptyDir : Fs where
  pathExists := fun p => p == "/empty"
  readDir := fun _ => []
  statOf := fun _ => (0, 0)

/-- Witness for C9 at concrete inputs: a missing path and an existing empty
directory both scan to `(0, [])`. -/
theorem scan_path_absent_or_empty_witness :
    scan_path fsNothing ["/rule"] "/missing" = (0, []) ∧
    scan_path fsEmptyDir ["/rule"] "/empty" = (0, []) :=
  ⟨(scan_path_absent_or_empty fsNothing ["/rule"] "/missing").1 rfl,
    (scan_path_absent_or_empty fsEmptyDir ["/rule"] "/empty").2 rfl⟩

/-! ## Claim C7: container-image size parsing -/

/-- C7 counterexample: the claim's reading (the remainder of every suffix,
including plain `B`, is parsed as a floating-point number and truncated)
demands `"1.5B" = 1`, but `parse_docker_size` parses the `B` remainder as an
unsigned integer and yields 0. -/
theorem parse_docker_size_b_not_float :
    parse_docker_size "1.5B" = 0 ∧ parse_docker_size_claim "1.5B" = 1 := by
  decide

/-- C7 amended: `parse_docker_size` agrees everywhere with the amended
description (case-insensitive suffix table `GB`/`MB`/`KB` with float-parsed
remainder and binary multiplier, bare `B` with unsigned-integer-parsed
remainder, 0 on any failure), and the concrete values of the specification
hold, as do representative instances of case insensitivity and of the
unparseable and unrecognized cases. -/
theorem parse_docker_size_spec :
    (∀ s : String, parse_docker_size s = parse_docker_size_amended s) ∧
    parse_docker_size "1KB" = 1024 ∧
    parse_docker_size "1MB" = 1048576 ∧
    parse_docker_size "1.5GB" = 1610612736 ∧
    parse_docker_size "500B" = 500 ∧
    parse_docker_size "0B" = 0 ∧
    parse_docker_size "2.5kb" = 2560 ∧
    parse_docker_size "1.5B" = 0 ∧
    parse_docker_size "..5GB" = 0 ∧
    parse_docker_size "512" = 0 := by
  refine ⟨?_, by decide, by decide, by decide, by decide, by decide, by decide,
    by decide, by decide, by decide⟩
  intro s
  unfold parse_docker_size parse_docker_size_amended
  rcases hGB : stripSuffixChars (prepSize s) "GB".data with _ | r1 <;>
    rcases hMB : stripSuffixChars (prepSize s) "MB".data with _ | r2 <;>
      rcases hKB : stripSuffixChars (prepSize s) "KB".data with _ | r3 <;>
        simp [lookupStrip, hGB, hMB, hKB]

/-! ## Claims C3 and C4: the deletion engine -/

/-- Sequential batch behaviour of the docker removal loop: when every id
before `bad` succeeds and `bad` exits non-zero, the trace is exactly the
commands up to and including `bad` and the loop aborts with the message built
from the captured stdout and stderr of `bad`. -/
theorem runRmis_failure (env : CleanEnv) (pre : List String) (bad : String)
    (post : List String) (out err : String)
    (hpre : ∀ i ∈ pre, ∃ o e, env.dockerRmi i = CmdOutcome.ran true o e)
    (hbad : env.dockerRmi bad = CmdOutcome.ran false out err) :
    runRmis env (pre ++ bad :: post) =
      (pre.map Effect.rmi ++ [Effect.rmi bad],
        Except.error (rmiFailMsg bad out err)) := by
  induction pre with
  | nil => simp [runRmis, hbad]
  | cons id rest ih =>
    obtain ⟨o, e, hid⟩ := hpre id (List.mem_cons_self id rest)
    have := ih (fun i hi => hpre i (List.mem_cons_of_mem id hi))
    simp [runRmis, hid, this]

/-- C3: when the docker ids extracted from the items split as
`pre ++ bad :: post` with every id of `pre` succeeding and `bad` exiting with
non-zero status, `delete_items` returns an error whose message contains the
captured stdout and stderr, its effect trace is exactly the removal commands
up to and including `bad` — so no id after `bad` is invoked — and no
filesystem path is deleted. -/
theorem delete_items_docker_failure (env : CleanEnv) (items : List ScannedItem)
    (pre : List String) (bad : String) (post : List String) (out err : String)
    (hids : dockerIdsOf items = pre ++ bad :: post)
    (hpre : ∀ i ∈ pre, ∃ o e, env.dockerRmi i = CmdOutcome.ran true o e)
    (hbad : env.dockerRmi bad = CmdOutcome.ran false out err) :
    delete_items env items =
      (pre.map Effect.rmi ++ [Effect.rmi bad],
        Except.error (rmiFailMsg bad out err)) ∧
    StrContains (rmiFailMsg bad out err) out ∧
    StrContains (rmiFailMsg bad out err) err ∧
    (∀ p : String, Effect.removeDirAll p ∉ (delete_items env items).1 ∧
      Effect.removeFile p ∉ (delete_items env items).1) := by
  have hne : items.isEmpty = false := by
    cases items with
    | nil => simp [dockerIdsOf] at hids
    | cons a l => rfl
  have hrun := runRmis_failure env pre bad post out err hpre hbad
  have hmain : delete_items env items =
      (pre.map Effect.rmi ++ [Effect.rmi bad],
        Except.error (rmiFailMsg bad out err)) := by
    simp [delete_items, hne, hids, hrun]
  refine ⟨hmain, ?_, ?_, ?_⟩
  · exact ⟨("Failed to remove Docker image " ++ bad ++ ".\nStdout: ").data,
      ("\nStderr: " ++ err).data, by simp [rmiFailMsg]⟩
  · exact ⟨("Failed to remove Docker image " ++ bad ++ ".\nStdout: " ++ out ++
      "\nStderr: ").data, [], by simp [rmiFailMsg]⟩
  · intro p
    rw [hmain]
    constructor
    · intro hmem
      rcases List.mem_append.mp hmem with h | h
      · obtain ⟨i, _, hi⟩ := List.mem_map.mp h
        exact Effect.noConfusion hi
      · simp at h
    · intro hmem
      rcases List.mem_append.mp hmem with h | h
      · obtain ⟨i, _, hi⟩ := List.mem_map.mp h
        exact Effect.noConfusion hi
      · simp at h

/-- Environment for the C3 witness: removing image `i2` fails with captured
output, every other removal succeeds, and `/tmp/f` is a plain file. -/
def cleanEnvFail : CleanEnv where
  dockerRmi := fun id =>
    if id = "i2" then CmdOutcome.ran false "out text" "err text"
    else CmdOutcome.ran true "" ""
  isDir := fun _ => false

/-- Item batch for the C3 witness: three container images and one file. -/
def itemsFail : List ScannedItem :=
  [⟨"docker://i1/r:a", 10, 0⟩, ⟨"docker://i2/r:b", 20, 0⟩,
   ⟨"docker://i3/r:c", 30, 0⟩, ⟨"/tmp/f", 40, 0⟩]

/-- Witness for C3 at a concrete batch: the failing second image aborts the
whole deletion; only the first two removal commands were issued, the third
image and the file were never touched, and the error carries the captured
output. -/
theorem delete_items_docker_failure_witness :
    delete_items cleanEnvFail itemsFail =
      ([Effect.rmi "i1", Effect.rmi "i2"],
        Except.error (rmiFailMsg "i2" "out text" "err text")) ∧
    StrContains (rmiFailMsg "i2" "out text" "err text") "out text" ∧
    StrContains (rmiFailMsg "i2" "out text" "err text") "err text" ∧
    Effect.removeFile "/tmp/f" ∉ (delete_items cleanEnvFail itemsFail).1 := by
  have h := delete_items_docker_failure cleanEnvFail itemsFail ["i1"] "i2"
    ["i3"] "out text" "err text" (by decide)
    (by
      intro i hi
      have : i = "i1" := by simpa using hi
      subst this
      exact ⟨"", "", by decide⟩)
    (by decide)
  exact ⟨h.1, h.2.1, h.2.2.1, (h.2.2.2 "/tmp/f").2⟩

/-- C4: `delete_items` on an empty batch is a success with no effects, and on
any batch containing no container-image identifier it always succeeds once the
loop completes — individual removal outcomes are discarded by the code, so no
filesystem failure can surface. -/
theorem delete_items_empty_or_files_only :
    (∀ env : CleanEnv, delete_items env [] = ([], Except.ok ())) ∧
    (∀ (env : CleanEnv) (items : List ScannedItem),
      (∀ it ∈ items, strStartsWith it.path dockerScheme = false) →
      (delete_items env items).2 = Except.ok ()) := by
  constructor
  · intro env
    simp [delete_items]
  · intro env items h
    by_cases he : items.isEmpty
    · simp [delete_items, he]
    · have hd : dockerIdsOf items = [] := by
        rw [dockerIdsOf, List.filterMap_eq_nil_iff]
        intro it hit
        simp [h it hit]
      simp [delete_items, he, hd, runRmis]

/-- Environment for the C4 witness. -/
def cleanEnvPlain : CleanEnv where
  dockerRmi := fun _ => CmdOutcome.ran true "" ""
  isDir := fun p => p = "/tmp/dir"

/-- Witness for C4 at concrete inputs: the empty batch and a files-only batch
both report success. -/
theorem delete_items_empty_or_files_only_witness :
    delete_items cleanEnvPlain [] = ([], Except.ok ()) ∧
    (delete_items cleanEnvPlain
      [⟨"/tmp/dir", 5, 0⟩, ⟨"/tmp/file.txt", 7, 0⟩]).2 = Except.ok () :=
  ⟨delete_items_empty_or_files_only.1 cleanEnvPlain,
    delete_items_empty_or_files_only.2 cleanEnvPlain
      [⟨"/tmp/dir", 5, 0⟩, ⟨"/tmp/file.txt", 7, 0⟩] (by decide)⟩

/-! ## Claim C5: leaving the Cleaning state -/

/-- App used by the C5 counterexample: one selected category with items and a
positive total, in state `cleaning` with the cleaning receiver attached. -/
def appCleaningSel : App where
  results := [⟨CategoryType.downloads, 100, [⟨"/d/f", 100, 0⟩], true, "d", "/d"⟩]
  selected := some 0
  state := AppState.cleaning
  cleaning_rx := true
  scan_rx := false
  scan_progress := []
  total_categories := 0

/-- C5 counterexample: on a failure result the state machine moves to `done`
with the failure message but does not zero `items`/`total_size` and does not
clear `is_selected` — the selected category keeps its selection, items and
total, contradicting the claim that both outcome kinds clear them. -/
theorem check_cleaning_status_failure_keeps_selection :
    (appCleaningSel.check_cleaning_status (some (Except.error "boom"))).state =
      AppState.done "boom" ∧
    (appCleaningSel.check_cleaning_status (some (Except.error "boom"))).results =
      appCleaningSel.results ∧
    appCleaningSel.results.map (fun r => r.is_selected) = [true] ∧
    appCleaningSel.results.map (fun r => r.total_size) = [100] := by
  refine ⟨?_, ?_, ?_, ?_⟩ <;> decide

/-- C5 amended: in state `cleaning` with the receiver attached, a success
message moves to `done` with that message and clears `is_selected`, `items`
and `total_size` of exactly the selected categories (even when individual
removals failed, since the cleaner reports best-effort success), while a
failure message moves to `done` with the failure message and leaves every
result untouched. -/
theorem check_cleaning_status_spec (app : App) (msg errMsg : String)
    (hst : app.state = AppState.cleaning) (hrx : app.cleaning_rx = true) :
    ((app.check_cleaning_status (some (Except.ok msg))).state =
      AppState.done msg) ∧
    ((app.check_cleaning_status (some (Except.ok msg))).results.length =
      app.results.length) ∧
    (∀ (i : Nat) (r : ScanResult), app.results[i]? = some r →
      (app.check_cleaning_status (some (Except.ok msg))).results[i]? =
        some (if r.is_selected then
          { r with is_selected := false, items := [], total_size := 0 }
        else r)) ∧
    ((app.check_cleaning_status (some (Except.error errMsg))).state =
      AppState.done errMsg) ∧
    ((app.check_cleaning_status (some (Except.error errMsg))).results =
      app.results) := by
  refine ⟨?_, ?_, ?_, ?_, ?_⟩
  · simp [App.check_cleaning_status, hrx]
  · simp [App.check_cleaning_status, hrx]
  · intro i r hir
    simp [App.check_cleaning_status, hrx, hir, clearIfSelected]
  · simp [App.check_cleaning_status, hrx]
  · simp [App.check_cleaning_status, hrx]

/-- Witness for C5 (amended) at the concrete app `appCleaningSel`: the success
message clears the selected category and the failure message leaves it
untouched. -/
theorem check_cleaning_status_spec_witness :
    ((appCleaningSel.check_cleaning_status (some (Except.ok "ok"))).state =
      AppState.done "ok") ∧
    ((appCleaningSel.check_cleaning_status
        (some (Except.error "bad"))).results = appCleaningSel.results) := by
  have h := check_cleaning_status_spec appCleaningSel "ok" "bad" rfl rfl
  exact ⟨h.1, h.2.2.2.2⟩

/-! ## Claim C6: completing the scan -/

/-- Each drained message leaves the coordination fields of the app (state,
receiver flags, selection, category count) unchanged; only the progress map
and the results list move. -/
theorem applyUpdate_preserves (app : App) (u : ScanUpdate) :
    (applyUpdate app u).state = app.state ∧
    (applyUpdate app u).total_categories = app.total_categories ∧
    (applyUpdate app u).scan_rx = app.scan_rx ∧
    (applyUpdate app u).selected = app.selected := by
  cases u <;> simp [applyUpdate]

/-- Folding a batch of drained messages preserves the coordination fields. -/
theorem foldl_applyUpdate_preserves (app : App) (updates : List ScanUpdate) :
    (updates.foldl applyUpdate app).state = app.state ∧
    (updates.foldl applyUpdate app).total_categories = app.total_categories ∧
    (updates.foldl applyUpdate app).scan_rx = app.scan_rx := by
  induction updates generalizing app with
  | nil => exact ⟨rfl, rfl, rfl⟩
  | cons u rest ih =>
    have h := applyUpdate_preserves app u
    have h' := ih (applyUpdate app u)
    simpa [h.1, h.2.1, h.2.2.1] using h'

/-- C6: in state `scanning` with the scan receiver attached, after draining a
batch of messages the app transitions to `browsing` exactly when the number
of received results equals the number of requested categories; on that
transition the results are the stable descending sort by total size (hence
sorted) and the first row is selected when any results exist; otherwise the
state remains `scanning` and the accumulated results are kept as they are. -/
theorem check_scan_status_spec (app : App) (updates : List ScanUpdate)
    (hst : app.state = AppState.scanning) (hrx : app.scan_rx = true) :
    (((updates.foldl applyUpdate app).results.length =
        (updates.foldl applyUpdate app).total_categories) →
      (app.check_scan_status updates).state = AppState.browsing ∧
      (app.check_scan_status updates).results =
        sortResultsDesc (updates.foldl applyUpdate app).results ∧
      List.Sorted totalDescRel (app.check_scan_status updates).results ∧
      ((app.check_scan_status updates).results ≠ [] →
        (app.check_scan_status updates).selected = some 0)) ∧
    (((updates.foldl applyUpdate app).results.length ≠
        (updates.foldl applyUpdate app).total_categories) →
      (app.check_scan_status updates).state = AppState.scanning ∧
      (app.check_scan_status updates).results =
        (updates.foldl applyUpdate app).results) := by
  constructor
  · intro hdone
    have hres : app.check_scan_status updates =
        { (updates.foldl applyUpdate app) with
          results := sortResultsDesc (updates.foldl applyUpdate app).results,
          selected := if (sortResultsDesc
              (updates.foldl applyUpdate app).results).isEmpty then
              (updates.foldl applyUpdate app).selected
            else some 0,
          state := AppState.browsing,
          scan_rx := false } := by
      simp [App.check_scan_status, hrx, hdone]
    refine ⟨by rw [hres], by rw [hres], ?_, ?_⟩
    · rw [hres]
      exact List.sorted_insertionSort totalDescRel _
    · intro hne
      rw [hres] at hne ⊢
      simp only [List.isEmpty_iff]
      simp only [] at hne
      rw [if_neg]
      simpa [List.isEmpty_iff] using hne
  · intro hnot
    have hres : app.check_scan_status updates = updates.foldl applyUpdate app := by
      simp [App.check_scan_status, hrx, hnot]
    rw [hres]
    exact ⟨(foldl_applyUpdate_preserves app updates).1.trans hst, rfl⟩

/-- App used by the C6 witness: one requested category, still scanning. -/
def appScanning : App where
  results := []
  selected := none
  state := AppState.scanning
  cleaning_rx := false
  scan_rx := true
  scan_progress := [(CategoryType.xcodeJunk,
    ⟨CategoryType.xcodeJunk, 0, "Waiting..."⟩)]
  total_categories := 1

/-- The single result received by the C6 witness. -/
def xcodeResult : ScanResult :=
  ⟨CategoryType.xcodeJunk, 1024, [], false, "Xcode junk", "/h/Library"⟩

/-- Witness for C6 at a concrete app: before any result the state stays
`scanning`, and on receiving the single requested result the state becomes
`browsing` with the first row selected. -/
theorem check_scan_status_spec_witness :
    (appScanning.check_scan_status []).state = AppState.scanning ∧
    (appScanning.check_scan_status [ScanUpdate.result xcodeResult]).state =
      AppState.browsing ∧
    (appScanning.check_scan_status [ScanUpdate.result xcodeResult]).selected =
      some 0 := by
  have h0 := (check_scan_status_spec appScanning [] rfl rfl).2 (by decide)
  have h1 := (check_scan_status_spec appScanning [ScanUpdate.result xcodeResult]
    rfl rfl).1 (by decide)
  exact ⟨h0.1, h1.1, h1.2.2.2 (by decide)⟩

/-! ## Claim C8: requesting a clean from Browsing -/

/-- C8: in state `browsing`, the Enter key leaves the app entirely unchanged
when the total selected size is 0, and changes exactly the state — to
`confirming` — when it is positive. -/
theorem browsing_enter_spec (app : App) (hst : app.state = AppState.browsing) :
    (app.total_selected_size = 0 → handleBrowsingKey app Key.enter = some app) ∧
    (0 < app.total_selected_size →
      handleBrowsingKey app Key.enter =
        some { app with state := AppState.confirming }) := by
  constructor
  · intro h
    simp [handleBrowsingKey, h]
  · intro h
    simp [handleBrowsingKey, Nat.pos_iff_ne_zero.mp h, h]

/-- App used by the C8 witness: browsing with one unselected category. -/
def appBrowsingNone : App where
  results := [⟨CategoryType.downloads, 100, [⟨"/d/f", 100, 0⟩], false, "d", "/d"⟩]
  selected := some 0
  state := AppState.browsing
  cleaning_rx := false
  scan_rx := false
  scan_progress := []
  total_categories := 1

/-- App used by the C8 witness: browsing with one selected category of
positive total size. -/
def appBrowsingSel : App where
  results := [⟨CategoryType.downloads, 100, [⟨"/d/f", 100, 0⟩], true, "d", "/d"⟩]
  selected := some 0
  state := AppState.browsing
  cleaning_rx := false
  scan_rx := false
  scan_progress := []
  total_categories := 1

/-- Witness for C8 at concrete apps: Enter with nothing selected changes
nothing; Enter with a positive selected total moves to `confirming`. -/
theorem browsing_enter_spec_witness :
    handleBrowsingKey appBrowsingNone Key.enter = some appBrowsingNone ∧
    handleBrowsingKey appBrowsingSel Key.enter =
      some { appBrowsingSel with state := AppState.confirming } :=
  ⟨(browsing_enter_spec appBrowsingNone rfl).1 (by decide),
    (browsing_enter_spec appBrowsingSel rfl).2 (by decide)⟩

/-! ## Claim C10: toggling the selected row -/

/-- `flipAt` preserves the list length. -/
theorem flipAt_length (l : List ScanResult) (i : Nat) :
    (flipAt l i).length = l.length := by
  induction l generalizing i with
  | nil => rfl
  | cons r rest ih =>
    cases i with
    | zero => rfl
    | succ n => simpa [flipAt] using ih n

/-- `flipAt` at the flipped index: the element keeps every field except
`is_selected`, which is negated. -/
theorem flipAt_getElem_self (l : List ScanResult) (i : Nat) :
    (flipAt l i)[i]? =
      (l[i]?).map (fun r => { r with is_selected := !r.is_selected }) := by
  induction l generalizing i with
  | nil => simp [flipAt]
  | cons r rest ih =>
    cases i with
    | zero => simp [flipAt]
    | succ n => simpa [flipAt] using ih n

/-- `flipAt` away from the flipped index: elements are unchanged. -/
theorem flipAt_getElem_other (l : List ScanResult) (i j : Nat) (h : j ≠ i) :
    (flipAt l i)[j]? = l[j]? := by
  induction l generalizing i j with
  | nil => simp [flipAt]
  | cons r rest ih =>
    cases i with
    | zero =>
      cases j with
      | zero => exact absurd rfl h
      | succ m => simp [flipAt]
    | succ n =>
      cases j with
      | zero => simp [flipAt]
      | succ m =>
        have := ih n m (fun hc => h (by rw [hc]))
        simpa [flipAt] using this

/-- Flipping the same index twice restores the list. -/
theorem flipAt_flipAt (l : List ScanResult) (i : Nat) :
    flipAt (flipAt l i) i = l := by
  induction l generalizing i with
  | nil => rfl
  | cons r rest ih =>
    cases i with
    | zero => simp [flipAt]
    | succ n => simp [flipAt, ih n]

/-- C10: with a selected in-range row `i`, `toggle` keeps the length, negates
only `is_selected` of row `i` keeping its other fields, leaves every other
row and every other app field unchanged, and is an involution; with no
selected row, or with the selected index out of range, `toggle` is the
identity. -/
theorem toggle_spec :
    (∀ (app : App) (i : Nat), app.selected = some i →
      i < app.results.length →
      (app.toggle.results.length = app.results.length ∧
       (∀ r : ScanResult, app.results[i]? = some r →
         app.toggle.results[i]? =
           some { r with is_selected := !r.is_selected }) ∧
       (∀ j : Nat, j ≠ i → app.toggle.results[j]? = app.results[j]?) ∧
       app.toggle.selected = app.selected ∧
       app.toggle.state = app.state ∧
       app.toggle.cleaning_rx = app.cleaning_rx ∧
       app.toggle.scan_rx = app.scan_rx ∧
       app.toggle.scan_progress = app.scan_progress ∧
       app.toggle.total_categories = app.total_categories ∧
       app.toggle.toggle = app)) ∧
    (∀ app : App, app.selected = none → app.toggle = app) ∧
    (∀ (app : App) (i : Nat), app.selected = some i →
      app.results.length ≤ i → app.toggle = app) := by
  refine ⟨?_, ?_, ?_⟩
  · intro app i hsel hlt
    have htog : app.toggle = { app with results := flipAt app.results i } := by
      simp [App.toggle, hsel, hlt]
    refine ⟨?_, ?_, ?_, ?_, ?_, ?_, ?_, ?_, ?_, ?_⟩
    · rw [htog]; exact flipAt_length app.results i
    · intro r hr
      rw [htog]
      show (flipAt app.results i)[i]? = _
      rw [flipAt_getElem_self, hr]
      rfl
    · intro j hj
      rw [htog]
      exact flipAt_getElem_other app.results i j hj
    · rw [htog]
    · rw [htog]
    · rw [htog]
    · rw [htog]
    · rw [htog]
    · rw [htog]
    · rw [htog]
      have hlt2 : i < (flipAt app.results i).length := by
        rw [flipAt_length]; exact hlt
      simp [App.toggle, hsel, hlt2, flipAt_flipAt]
      rw [← hsel]
  · intro app hsel
    simp [App.toggle, hsel]
  · intro app i hsel hge
    simp [App.toggle, hsel, Nat.not_lt.mpr hge]

/-- App used by the C10 witness. -/
def appToggle : App where
  results := [⟨CategoryType.downloads, 100, [⟨"/d/f", 100, 0⟩], false, "d", "/d"⟩,
    ⟨CategoryType.trash, 50, [], true, "t", "/t"⟩]
  selected := some 0
  state := AppState.browsing
  cleaning_rx := false
  scan_rx := false
  scan_progress := []
  total_categories := 2

/-- Witness for C10 at a concrete app: toggling flips row 0, keeps row 1, and
toggling twice restores the app. -/
theorem toggle_spec_witness :
    appToggle.toggle.results[0]? =
      some { (⟨CategoryType.downloads, 100, [⟨"/d/f", 100, 0⟩], false, "d",
        "/d"⟩ : ScanResult) with is_selected := true } ∧
    appToggle.toggle.results[1]? = appToggle.results[1]? ∧
    appToggle.toggle.toggle = appToggle := by
  have h := toggle_spec.1 appToggle 0 rfl (by decide)
  refine ⟨?_, h.2.2.1 1 (by decide), h.2.2.2.2.2.2.2.2.2⟩
  have h2 := h.2.1 (⟨CategoryType.downloads, 100, [⟨"/d/f", 100, 0⟩], false,
    "d", "/d"⟩ : ScanResult) (by decide)
  simpa using h2

end Sukkiri
